import Mathlib

/-!
# Slate text layout: locations, selections, offset tables and dirty flags

A shallow embedding of the value types declared in
`Engine/Source/Runtime/Slate/Public/Framework/Text/TextLayout.h`
(`FTextLocation`, `FTextSelection`, `FTextLayout::FTextOffsetLocations`,
`FTextLayout::EDirtyState`) together with the properties the design document
states about them.

Conventions.  An `int32` is an `Int`; the only arithmetic in the header that can
leave the `int32` range is the addition inside the relative constructor of
`FTextLocation`, which is wrapped explicitly by `wrapInt32`.  A `bool` is a
`Bool`.  A `const FTextLocation&` returned by a selection is modelled twice: as
the data member it designates (`FTextSelection.Member`) and as the value read
through it.
-/

/-- Modelled from the spec: the engine constant `INDEX_NONE` is defined outside the
two headers at hand; it is the engine-wide "no index" marker `-1`. -/
def INDEX_NONE : Int := -1

/-- Two's-complement reduction of an integer to the `int32` range. -/
def wrapInt32 (x : Int) : Int := (x + 2 ^ 31) % 2 ^ 32 - 2 ^ 31

/-- Modelled from the spec: `FMath::Max` lives in the engine core, outside the headers
at hand; it returns the greater of its two arguments. -/
def FMath.Max (A B : Int) : Int := if A ≥ B then A else B

/-- Location within the text model. -/
structure FTextLocation where
  LineIndex : Int
  Offset : Int
deriving DecidableEq, Repr

namespace FTextLocation

/-- Constructor `FTextLocation( const int32 InLineIndex = 0, const int32 InOffset = 0 )`. -/
def ctor (InLineIndex : Int := 0) (InOffset : Int := 0) : FTextLocation :=
  { LineIndex := InLineIndex, Offset := InOffset }

def GetLineIndex (self : FTextLocation) : Int := self.LineIndex

def GetOffset (self : FTextLocation) : Int := self.Offset

/-- Constructor `FTextLocation( const FTextLocation& InLocation, const int32 InOffset )`:
same line, offset `FMath::Max(InLocation.GetOffset() + InOffset, 0)` with the sum
taken in `int32`. -/
def ctorRelative (InLocation : FTextLocation) (InOffset : Int) : FTextLocation :=
  { LineIndex := InLocation.GetLineIndex
    Offset := FMath.Max (wrapInt32 (InLocation.GetOffset + InOffset)) 0 }

/-- Member `operator==`. -/
def operator_eq (self Other : FTextLocation) : Bool :=
  self.LineIndex == Other.LineIndex &&
  self.Offset == Other.Offset

/-- Member `operator!=`. -/
def operator_ne (self Other : FTextLocation) : Bool :=
  self.LineIndex != Other.LineIndex ||
  self.Offset != Other.Offset

/-- Member `operator<`. -/
def operator_lt (self Other : FTextLocation) : Bool :=
  decide (self.LineIndex < Other.LineIndex) ||
    (self.LineIndex == Other.LineIndex && decide (self.Offset < Other.Offset))

/-- Member `IsValid()`. -/
def IsValid (self : FTextLocation) : Bool :=
  self.LineIndex != INDEX_NONE && self.Offset != INDEX_NONE

end FTextLocation

/-- A selection: two locations held by value. -/
structure FTextSelection where
  LocationA : FTextLocation
  LocationB : FTextLocation
deriving DecidableEq, Repr

namespace FTextSelection

/-- The data member a returned `const FTextLocation&` designates. -/
inductive Member where
  | LocationA
  | LocationB
deriving DecidableEq, Repr

/-- Reading a selection through a member reference. -/
def read (self : FTextSelection) : Member → FTextLocation
  | Member.LocationA => self.LocationA
  | Member.LocationB => self.LocationB

/-- Constructor `FTextSelection()`: both members are built as `FTextLocation(INDEX_NONE)`,
the second constructor argument keeping its default. -/
def ctorDefault : FTextSelection :=
  { LocationA := FTextLocation.ctor INDEX_NONE
    LocationB := FTextLocation.ctor INDEX_NONE }

/-- Constructor `FTextSelection(const FTextLocation& InLocationA, const FTextLocation& InLocationB)`. -/
def ctor (InLocationA InLocationB : FTextLocation) : FTextSelection :=
  { LocationA := InLocationA, LocationB := InLocationB }

/-- The member `GetBeginning()` returns a reference to. -/
def GetBeginningRef (self : FTextSelection) : Member :=
  if self.LocationA.GetLineIndex = self.LocationB.GetLineIndex then
    if self.LocationA.GetOffset < self.LocationB.GetOffset then
      Member.LocationA
    else
      Member.LocationB
  else if self.LocationA.GetLineIndex < self.LocationB.GetLineIndex then
    Member.LocationA
  else
    Member.LocationB

/-- The member `GetEnd()` returns a reference to. -/
def GetEndRef (self : FTextSelection) : Member :=
  if self.LocationA.GetLineIndex = self.LocationB.GetLineIndex then
    if self.LocationA.GetOffset > self.LocationB.GetOffset then
      Member.LocationA
    else
      Member.LocationB
  else if self.LocationA.GetLineIndex > self.LocationB.GetLineIndex then
    Member.LocationA
  else
    Member.LocationB

/-- Member `GetBeginning()`, as the value read through the returned reference. -/
def GetBeginning (self : FTextSelection) : FTextLocation :=
  self.read self.GetBeginningRef

/-- Member `GetEnd()`, as the value read through the returned reference. -/
def GetEnd (self : FTextSelection) : FTextLocation :=
  self.read self.GetEndRef

end FTextSelection

namespace FTextLayout

/-! ### Dirty flags -/

namespace EDirtyState

/-- Enumerator `None = 0`. -/
def None : Nat := 0

/-- Enumerator `Layout = 1<<0`. -/
def Layout : Nat := 1 <<< 0

/-- Enumerator `Highlights = 1<<1`. -/
def Highlights : Nat := 1 <<< 1

/-- Conversion of an `int` bit pattern to `EDirtyState::Flags`, a `uint8`. -/
def toFlags (x : Nat) : Nat := x % 2 ^ 8

/-- The 32-bit pattern of `~X` for an enumerator `X` promoted to `int`. -/
def complement (X : Nat) : Nat := 2 ^ 32 - 1 - X % 2 ^ 32

/-- The flag word after `DirtyFlags | X`: both operands are promoted to `int`, the
result is stored in a `uint8`. -/
def setFlag (f X : Nat) : Nat := toFlags (f ||| X)

/-- The flag word after `DirtyFlags & ~X`: the complement is taken on the promoted
`int`, the result is stored in a `uint8`. -/
def clearFlag (f X : Nat) : Nat := toFlags (f &&& complement X)

/-- The test `DirtyFlags & Y`. -/
def testFlag (f Y : Nat) : Nat := f &&& Y

end EDirtyState

/-! ### Flat offsets and structured locations -/

/-- Entry of the offset table: index in the flat string at which a line starts, and
the length of that line in the document (not including any trailing line break). -/
structure FTextOffsetLocations.FOffsetEntry where
  FlatStringIndex : Int
  DocumentLineLength : Int
deriving DecidableEq, Repr

/-- A mapping between the offsets into the text as a flat string (with line breaks)
and the lines of a text layout: one entry per line, the array index being the line
number. -/
structure FTextOffsetLocations where
  OffsetData : List FTextOffsetLocations.FOffsetEntry
deriving DecidableEq, Repr

/-- Modelled from the spec: the body of `GetAsTextAndOffsets` is not in the header.
Section 4.6: walk the line models in order, append each line's text to a flat buffer
and a line separator between lines (not after the last), and record per line its
start offset in the flat buffer and its length.  `FlatIndex` is the length of the
buffer before the first of the remaining lines; a line model is represented by its
text. -/
def GetAsTextAndOffsetsFrom (FlatIndex : Nat) :
    List (List Char) → List Char × List FTextOffsetLocations.FOffsetEntry
  | [] => ([], [])
  | [Line] => (Line, [⟨FlatIndex, Line.length⟩])
  | Line :: Next :: Rest =>
      let Tail := GetAsTextAndOffsetsFrom (FlatIndex + Line.length + 1) (Next :: Rest)
      (Line ++ Char.ofNat 10 :: Tail.1, ⟨FlatIndex, Line.length⟩ :: Tail.2)

/-- Modelled from the spec: `GetAsText` with its offset side-output (section 4.6),
starting from an empty flat buffer. -/
def GetAsTextAndOffsets (LineModels : List (List Char)) :
    List Char × FTextOffsetLocations :=
  ((GetAsTextAndOffsetsFrom 0 LineModels).1, ⟨(GetAsTextAndOffsetsFrom 0 LineModels).2⟩)

/-- Modelled from the spec: the offset table of a document (`GetTextOffsetLocations`). -/
def GetTextOffsetLocations (LineModels : List (List Char)) : FTextOffsetLocations :=
  (GetAsTextAndOffsets LineModels).2

/-- Modelled from the spec: the total length of the flat text of a document, line
separators included. -/
def totalLength (LineModels : List (List Char)) : Int :=
  ((GetAsTextAndOffsets LineModels).1.length : Nat)

namespace FTextOffsetLocations

/-- Modelled from the spec: "clamping offset within `[0, lineLength]`" (section 4.6). -/
def clampOffset (InOffset LineLength : Int) : Int :=
  if InOffset < 0 then 0 else if InOffset < LineLength then InOffset else LineLength

/-- Modelled from the spec: the body of `TextLocationToOffset` is not in the header,
which declares an `int32` result.  Section 4.6: the line is located by direct
indexing, the offset is clamped within `[0, lineLength]`.  A location that addresses
no line of the table fails with the default-constructed result of section 5, the
`int32` value `0`. -/
def TextLocationToOffset (self : FTextOffsetLocations) (InLocation : FTextLocation) :
    Int :=
  if 0 ≤ InLocation.GetLineIndex then
    match self.OffsetData[InLocation.GetLineIndex.toNat]? with
    | some Entry =>
        Entry.FlatStringIndex + clampOffset InLocation.GetOffset Entry.DocumentLineLength
    | none => 0
  else
    0

/-- Modelled from the spec: the scan of `OffsetToTextLocation` over the cumulative
line starts (section 4.6), `LineIndex` being the number of the first remaining
entry: the line is the one whose start is at or before the offset while the next
line starts after it, and the offset within the line is clamped within
`[0, lineLength]`.  When no line is found the result is the default-constructed
result of section 5, `FTextLocation()`. -/
def OffsetToTextLocationFrom (InOffset : Int) :
    Nat → List FOffsetEntry → FTextLocation
  | _, [] => FTextLocation.ctor
  | LineIndex, [Entry] =>
      if Entry.FlatStringIndex ≤ InOffset then
        FTextLocation.ctor LineIndex
          (clampOffset (InOffset - Entry.FlatStringIndex) Entry.DocumentLineLength)
      else
        FTextLocation.ctor
  | LineIndex, Entry :: Next :: Rest =>
      if Entry.FlatStringIndex ≤ InOffset ∧ InOffset < Next.FlatStringIndex then
        FTextLocation.ctor LineIndex
          (clampOffset (InOffset - Entry.FlatStringIndex) Entry.DocumentLineLength)
      else
        OffsetToTextLocationFrom InOffset (LineIndex + 1) (Next :: Rest)

/-- Modelled from the spec: the body of `OffsetToTextLocation` is not in the header;
the scan starts at line 0. -/
def OffsetToTextLocation (self : FTextOffsetLocations) (InOffset : Int) : FTextLocation :=
  OffsetToTextLocationFrom InOffset 0 self.OffsetData

/-- Invariant of an offset table: the first remaining line starts at flat index
`Start`, every line has a non-negative length, each following line starts one
separator after the end of the line before it, and the line after the last one would
start at `Stop + 1` (so `Stop` is the flat index at which the last line ends). -/
def Tiled (Stop : Int) : Int → List FOffsetEntry → Prop
  | Start, [] => Start = Stop + 1
  | Start, Entry :: Rest =>
      Entry.FlatStringIndex = Start ∧ 0 ≤ Entry.DocumentLineLength ∧
        Tiled Stop (Start + Entry.DocumentLineLength + 1) Rest

end FTextOffsetLocations

end FTextLayout

/-! ## Locations -/

/-- C1: `operator<` is the lexicographic order on `(LineIndex, Offset)`; it is
irreflexive and transitive, and of `a < b`, `a == b`, `b < a` exactly one holds. -/
theorem FTextLocation.operator_lt_strict_total_order (a b c : FTextLocation) :
    (a.operator_lt b = true ↔
      (a.LineIndex < b.LineIndex ∨ (a.LineIndex = b.LineIndex ∧ a.Offset < b.Offset))) ∧
    a.operator_lt a = false ∧
    (a.operator_lt b = true → b.operator_lt c = true → a.operator_lt c = true) ∧
    ((a.operator_lt b = true ∧ a.operator_eq b = false ∧ b.operator_lt a = false) ∨
     (a.operator_lt b = false ∧ a.operator_eq b = true ∧ b.operator_lt a = false) ∨
     (a.operator_lt b = false ∧ a.operator_eq b = false ∧ b.operator_lt a = true)) := by
  obtain ⟨al, ao⟩ := a
  obtain ⟨bl, bo⟩ := b
  obtain ⟨cl, co⟩ := c
  simp only [FTextLocation.operator_lt, FTextLocation.operator_eq, Bool.or_eq_true,
    Bool.and_eq_true, decide_eq_true_eq, beq_iff_eq, Bool.or_eq_false_iff,
    Bool.and_eq_false_iff, decide_eq_false_iff_not, beq_eq_false_iff_ne, ne_eq]
  refine ⟨?_, ?_, ?_, ?_⟩
  · trivial
  · omega
  · omega
  · omega

/-- C5: `operator==` holds exactly when both fields agree, `operator!=` is its exact
negation, and `operator==` is reflexive, symmetric and transitive. -/
theorem FTextLocation.operator_eq_structural (a b c : FTextLocation) :
    (a.operator_eq b = true ↔ (a.LineIndex = b.LineIndex ∧ a.Offset = b.Offset)) ∧
    (a.operator_eq b = true ↔ a = b) ∧
    a.operator_ne b = !(a.operator_eq b) ∧
    a.operator_eq a = true ∧
    (a.operator_eq b = true → b.operator_eq a = true) ∧
    (a.operator_eq b = true → b.operator_eq c = true → a.operator_eq c = true) := by
  obtain ⟨al, ao⟩ := a
  obtain ⟨bl, bo⟩ := b
  obtain ⟨cl, co⟩ := c
  refine ⟨?_, ?_, ?_, ?_, ?_, ?_⟩
  · simp [FTextLocation.operator_eq]
  · simp [FTextLocation.operator_eq]
  · simp [FTextLocation.operator_eq, FTextLocation.operator_ne, bne, Bool.not_and]
  · simp [FTextLocation.operator_eq]
  · simp only [FTextLocation.operator_eq, Bool.and_eq_true, beq_iff_eq]
    rintro ⟨h1, h2⟩
    exact ⟨h1.symm, h2.symm⟩
  · simp only [FTextLocation.operator_eq, Bool.and_eq_true, beq_iff_eq]
    rintro ⟨h1, h2⟩ ⟨h3, h4⟩
    exact ⟨h1.trans h3, h2.trans h4⟩

/-- C7: `IsValid()` is true exactly when neither field is `INDEX_NONE` (which is
`-1`): a marker in either field makes the location invalid, both locations of a
default-constructed selection are invalid, and the default-constructed location
`(0, 0)` is valid. -/
theorem FTextLocation.IsValid_iff_no_marker (L : FTextLocation) :
    INDEX_NONE = -1 ∧
    (L.IsValid = true ↔ (L.LineIndex ≠ INDEX_NONE ∧ L.Offset ≠ INDEX_NONE)) ∧
    (L.LineIndex = INDEX_NONE ∨ L.Offset = INDEX_NONE → L.IsValid = false) ∧
    FTextSelection.ctorDefault.LocationA.IsValid = false ∧
    FTextSelection.ctorDefault.LocationB.IsValid = false ∧
    (FTextLocation.ctor : FTextLocation) = { LineIndex := 0, Offset := 0 } ∧
    (FTextLocation.ctor : FTextLocation).IsValid = true := by
  refine ⟨rfl, ?_, ?_, by decide, by decide, rfl, by decide⟩
  · simp [FTextLocation.IsValid]
  · intro h
    simp only [FTextLocation.IsValid, Bool.and_eq_false_iff, bne_eq_false_iff_eq]
    exact h

/-- C9: when `L.Offset + d` stays inside `int32`, the relative constructor keeps the
line, sets the offset to `max (L.Offset + d) 0`, which is not negative, and with
`d = 0` and a non-negative `L.Offset` it returns `L`. -/
theorem FTextLocation.ctorRelative_offset (L : FTextLocation) (d : Int)
    (hlo : -2 ^ 31 ≤ L.Offset + d) (hhi : L.Offset + d < 2 ^ 31) :
    (FTextLocation.ctorRelative L d).LineIndex = L.LineIndex ∧
    (FTextLocation.ctorRelative L d).Offset = max (L.Offset + d) 0 ∧
    0 ≤ (FTextLocation.ctorRelative L d).Offset ∧
    (d = 0 → 0 ≤ L.Offset → FTextLocation.ctorRelative L d = L) := by
  obtain ⟨l, o⟩ := L
  have hw : wrapInt32 (o + d) = o + d := by
    unfold wrapInt32
    simp only at hlo hhi
    omega
  simp only [FTextLocation.ctorRelative, FTextLocation.GetLineIndex,
    FTextLocation.GetOffset, hw, FMath.Max, FTextLocation.mk.injEq, true_and]
  refine ⟨?_, ?_, ?_⟩
  · split <;> omega
  · split <;> omega
  · intro h0 ho
    subst h0
    split <;> omega

/-- Witness for C9: from `(3, 5)` with delta `-9` the sum `-4` is inside `int32`. -/
theorem FTextLocation.ctorRelative_offset_witness :
    (FTextLocation.ctorRelative { LineIndex := 3, Offset := 5 } (-9)).LineIndex = 3 ∧
    (FTextLocation.ctorRelative { LineIndex := 3, Offset := 5 } (-9)).Offset
      = max ((5 : Int) + (-9)) 0 ∧
    0 ≤ (FTextLocation.ctorRelative { LineIndex := 3, Offset := 5 } (-9)).Offset ∧
    ((-9 : Int) = 0 → (0 : Int) ≤ 5 →
      FTextLocation.ctorRelative { LineIndex := 3, Offset := 5 } (-9)
        = { LineIndex := 3, Offset := 5 }) :=
  FTextLocation.ctorRelative_offset { LineIndex := 3, Offset := 5 } (-9)
    (by decide) (by decide)

/-! ## Selections -/

/-- C2: for every selection, `GetEnd() < GetBeginning()` is false, and
`GetBeginning()` is below or equal to `GetEnd()` under `operator<` and `operator==`. -/
theorem FTextSelection.GetBeginning_le_GetEnd (s : FTextSelection) :
    s.GetEnd.operator_lt s.GetBeginning = false ∧
    (s.GetBeginning.operator_lt s.GetEnd = true ∨
      s.GetBeginning.operator_eq s.GetEnd = true) := by
  obtain ⟨⟨al, ao⟩, ⟨bl, bo⟩⟩ := s
  simp only [FTextSelection.GetEnd, FTextSelection.GetBeginning,
    FTextSelection.GetEndRef, FTextSelection.GetBeginningRef,
    FTextLocation.GetLineIndex, FTextLocation.GetOffset, gt_iff_lt]
  split_ifs <;>
    simp only [FTextSelection.read, FTextLocation.operator_lt, FTextLocation.operator_eq,
      Bool.or_eq_true, Bool.and_eq_true, decide_eq_true_eq, beq_iff_eq,
      Bool.or_eq_false_iff, Bool.and_eq_false_iff, decide_eq_false_iff_not,
      beq_eq_false_iff_ne, ne_eq] <;>
    first
      | omega
      | simp

/-- C3: `GetBeginning()` returns a reference to `LocationA` exactly when
`LocationA < LocationB` and to `LocationB` otherwise; `GetEnd()` returns a reference
to `LocationA` exactly when `LocationB < LocationA` and to `LocationB` otherwise; the
pair of values returned is `(LocationA, LocationB)` or `(LocationB, LocationA)`. -/
theorem FTextSelection.GetBeginning_GetEnd_agree_with_operator_lt (s : FTextSelection) :
    (s.GetBeginningRef = FTextSelection.Member.LocationA ↔
      s.LocationA.operator_lt s.LocationB = true) ∧
    (s.GetBeginningRef = FTextSelection.Member.LocationB ↔
      s.LocationA.operator_lt s.LocationB = false) ∧
    (s.GetEndRef = FTextSelection.Member.LocationA ↔
      s.LocationB.operator_lt s.LocationA = true) ∧
    (s.GetEndRef = FTextSelection.Member.LocationB ↔
      s.LocationB.operator_lt s.LocationA = false) ∧
    s.GetBeginning =
      (if s.LocationA.operator_lt s.LocationB = true then s.LocationA else s.LocationB) ∧
    s.GetEnd =
      (if s.LocationB.operator_lt s.LocationA = true then s.LocationA else s.LocationB) ∧
    ((s.GetBeginning, s.GetEnd) = (s.LocationA, s.LocationB) ∨
      (s.GetBeginning, s.GetEnd) = (s.LocationB, s.LocationA)) := by
  obtain ⟨⟨al, ao⟩, ⟨bl, bo⟩⟩ := s
  have hb : FTextSelection.GetBeginningRef ⟨⟨al, ao⟩, ⟨bl, bo⟩⟩ =
      FTextSelection.Member.LocationA ↔
      FTextLocation.operator_lt ⟨al, ao⟩ ⟨bl, bo⟩ = true := by
    simp only [FTextSelection.GetBeginningRef, FTextLocation.GetLineIndex,
      FTextLocation.GetOffset, FTextLocation.operator_lt, Bool.or_eq_true,
      Bool.and_eq_true, decide_eq_true_eq, beq_iff_eq]
    split_ifs <;> simp <;> omega
  have he : FTextSelection.GetEndRef ⟨⟨al, ao⟩, ⟨bl, bo⟩⟩ =
      FTextSelection.Member.LocationA ↔
      FTextLocation.operator_lt ⟨bl, bo⟩ ⟨al, ao⟩ = true := by
    simp only [FTextSelection.GetEndRef, FTextLocation.GetLineIndex,
      FTextLocation.GetOffset, FTextLocation.operator_lt, Bool.or_eq_true,
      Bool.and_eq_true, decide_eq_true_eq, beq_iff_eq, gt_iff_lt]
    split_ifs <;> simp <;> omega
  have hb2 : FTextSelection.GetBeginningRef ⟨⟨al, ao⟩, ⟨bl, bo⟩⟩ =
      FTextSelection.Member.LocationB ↔
      FTextLocation.operator_lt ⟨al, ao⟩ ⟨bl, bo⟩ = false := by
    rw [← Bool.not_eq_true, ← hb]
    cases FTextSelection.GetBeginningRef ⟨⟨al, ao⟩, ⟨bl, bo⟩⟩ <;> simp
  have he2 : FTextSelection.GetEndRef ⟨⟨al, ao⟩, ⟨bl, bo⟩⟩ =
      FTextSelection.Member.LocationB ↔
      FTextLocation.operator_lt ⟨bl, bo⟩ ⟨al, ao⟩ = false := by
    rw [← Bool.not_eq_true, ← he]
    cases FTextSelection.GetEndRef ⟨⟨al, ao⟩, ⟨bl, bo⟩⟩ <;> simp
  have hbv : FTextSelection.GetBeginning ⟨⟨al, ao⟩, ⟨bl, bo⟩⟩ =
      (if FTextLocation.operator_lt ⟨al, ao⟩ ⟨bl, bo⟩ = true then ⟨al, ao⟩
        else ⟨bl, bo⟩) := by
    unfold FTextSelection.GetBeginning
    by_cases h : FTextLocation.operator_lt ⟨al, ao⟩ ⟨bl, bo⟩ = true
    · rw [if_pos h, hb.mpr h]
      rfl
    · rw [if_neg h, hb2.mpr (Bool.not_eq_true _ ▸ h)]
      rfl
  have hev : FTextSelection.GetEnd ⟨⟨al, ao⟩, ⟨bl, bo⟩⟩ =
      (if FTextLocation.operator_lt ⟨bl, bo⟩ ⟨al, ao⟩ = true then ⟨al, ao⟩
        else ⟨bl, bo⟩) := by
    unfold FTextSelection.GetEnd
    by_cases h : FTextLocation.operator_lt ⟨bl, bo⟩ ⟨al, ao⟩ = true
    · rw [if_pos h, he.mpr h]
      rfl
    · rw [if_neg h, he2.mpr (Bool.not_eq_true _ ▸ h)]
      rfl
  refine ⟨hb, hb2, he, he2, hbv, hev, ?_⟩
  rw [hbv, hev]
  simp only [FTextLocation.operator_lt, Bool.or_eq_true, Bool.and_eq_true,
    decide_eq_true_eq, beq_iff_eq, Prod.mk.injEq, FTextLocation.mk.injEq]
  split_ifs <;> simp <;> omega

/-- C4: `FTextSelection(X, Y)` and `FTextSelection(Y, X)` have equal `GetBeginning()`
values and equal `GetEnd()` values, equality being `operator==`. -/
theorem FTextSelection.unordered_pair (X Y : FTextLocation) :
    (FTextSelection.ctor X Y).GetBeginning.operator_eq
      (FTextSelection.ctor Y X).GetBeginning = true ∧
    (FTextSelection.ctor X Y).GetEnd.operator_eq
      (FTextSelection.ctor Y X).GetEnd = true := by
  obtain ⟨xl, xo⟩ := X
  obtain ⟨yl, yo⟩ := Y
  simp only [FTextSelection.ctor, FTextSelection.GetEnd, FTextSelection.GetBeginning,
    FTextSelection.GetEndRef, FTextSelection.GetBeginningRef,
    FTextLocation.GetLineIndex, FTextLocation.GetOffset, gt_iff_lt]
  constructor <;>
    split_ifs <;>
    simp only [FTextSelection.read, FTextLocation.operator_eq, Bool.and_eq_true,
      beq_iff_eq] <;>
    first
      | omega
      | simp

/-- C6, as stated, fails: the default-constructed selection does not carry
`INDEX_NONE` in both fields of both locations, because `FTextLocation(INDEX_NONE)`
leaves `InOffset` at its default `0`. -/
theorem FTextSelection.ctorDefault_not_marker_in_both_fields :
    ¬ ((FTextSelection.ctorDefault.LocationA.LineIndex = INDEX_NONE ∧
        FTextSelection.ctorDefault.LocationA.Offset = INDEX_NONE) ∧
       (FTextSelection.ctorDefault.LocationB.LineIndex = INDEX_NONE ∧
        FTextSelection.ctorDefault.LocationB.Offset = INDEX_NONE)) := by
  decide

/-- C6, amended: each location of a default-constructed selection has `LineIndex`
equal to `INDEX_NONE` (`-1`) and `Offset` equal to `0`, and is reported invalid by
`IsValid()`. -/
theorem FTextSelection.ctorDefault_fields :
    INDEX_NONE = -1 ∧
    (FTextSelection.ctorDefault.LocationA.LineIndex = INDEX_NONE ∧
      FTextSelection.ctorDefault.LocationA.Offset = 0 ∧
      FTextSelection.ctorDefault.LocationA.IsValid = false) ∧
    (FTextSelection.ctorDefault.LocationB.LineIndex = INDEX_NONE ∧
      FTextSelection.ctorDefault.LocationB.Offset = 0 ∧
      FTextSelection.ctorDefault.LocationB.IsValid = false) := by
  decide

/-! ## Dirty flags -/

/-- C10: `None` is `0`, `Layout` and `Highlights` are the non-zero single-bit masks
`2 ^ 0` and `2 ^ 1` with no common bit, the four combinations are pairwise distinct,
and on every `uint8` flag word setting or clearing one flag leaves the test of the
other flag unchanged. -/
theorem FTextLayout.EDirtyState.flags_independent (f : Nat) (hf : f < 2 ^ 8) :
    FTextLayout.EDirtyState.None = 0 ∧
    FTextLayout.EDirtyState.Layout = 2 ^ 0 ∧
    FTextLayout.EDirtyState.Highlights = 2 ^ 1 ∧
    FTextLayout.EDirtyState.Layout ≠ 0 ∧
    FTextLayout.EDirtyState.Highlights ≠ 0 ∧
    FTextLayout.EDirtyState.Layout &&& FTextLayout.EDirtyState.Highlights = 0 ∧
    [FTextLayout.EDirtyState.None, FTextLayout.EDirtyState.Layout,
      FTextLayout.EDirtyState.Highlights,
      FTextLayout.EDirtyState.Layout ||| FTextLayout.EDirtyState.Highlights].Nodup ∧
    FTextLayout.EDirtyState.testFlag
        (FTextLayout.EDirtyState.setFlag f FTextLayout.EDirtyState.Layout)
        FTextLayout.EDirtyState.Highlights
      = FTextLayout.EDirtyState.testFlag f FTextLayout.EDirtyState.Highlights ∧
    FTextLayout.EDirtyState.testFlag
        (FTextLayout.EDirtyState.clearFlag f FTextLayout.EDirtyState.Layout)
        FTextLayout.EDirtyState.Highlights
      = FTextLayout.EDirtyState.testFlag f FTextLayout.EDirtyState.Highlights ∧
    FTextLayout.EDirtyState.testFlag
        (FTextLayout.EDirtyState.setFlag f FTextLayout.EDirtyState.Highlights)
        FTextLayout.EDirtyState.Layout
      = FTextLayout.EDirtyState.testFlag f FTextLayout.EDirtyState.Layout ∧
    FTextLayout.EDirtyState.testFlag
        (FTextLayout.EDirtyState.clearFlag f FTextLayout.EDirtyState.Highlights)
        FTextLayout.EDirtyState.Layout
      = FTextLayout.EDirtyState.testFlag f FTextLayout.EDirtyState.Layout := by
  refine ⟨rfl, rfl, rfl, by decide, by decide, by decide, by decide, ?_⟩
  simp only [FTextLayout.EDirtyState.testFlag, FTextLayout.EDirtyState.setFlag,
    FTextLayout.EDirtyState.clearFlag, FTextLayout.EDirtyState.toFlags,
    FTextLayout.EDirtyState.complement, FTextLayout.EDirtyState.Layout,
    FTextLayout.EDirtyState.Highlights]
  norm_num at hf
  interval_cases f <;> decide

/-! ## Offset tables -/

namespace FTextLayout

open FTextOffsetLocations

theorem GetAsTextAndOffsetsFrom_offsets_cons (k : Nat) (l : List Char)
    (rest : List (List Char)) :
    (GetAsTextAndOffsetsFrom k (l :: rest)).2 =
      ⟨k, l.length⟩ :: (GetAsTextAndOffsetsFrom (k + l.length + 1) rest).2 := by
  cases rest <;> rfl

theorem GetAsTextAndOffsetsFrom_flat_length_cons (k : Nat) (l n : List Char)
    (rest : List (List Char)) :
    (GetAsTextAndOffsetsFrom k (l :: n :: rest)).1.length =
      l.length + 1 + (GetAsTextAndOffsetsFrom (k + l.length + 1) (n :: rest)).1.length := by
  simp only [GetAsTextAndOffsetsFrom, List.length_append, List.length_cons]
  omega

/-- The table of a document with at least one line is tiled, from the start index up
to the end of the flat text. -/
theorem GetAsTextAndOffsetsFrom_tiled (lines : List (List Char)) (hne : lines ≠ [])
    (k : Nat) :
    Tiled ((k : Int) + ((GetAsTextAndOffsetsFrom k lines).1.length : Nat)) k
      (GetAsTextAndOffsetsFrom k lines).2 := by
  induction lines generalizing k with
  | nil => exact absurd rfl hne
  | cons l rest ih =>
    cases rest with
    | nil =>
      simp only [GetAsTextAndOffsetsFrom, Tiled]
      exact ⟨trivial, Int.ofNat_nonneg _, trivial⟩
    | cons n rest2 =>
      have h := ih (List.cons_ne_nil n rest2) (k + l.length + 1)
      rw [GetAsTextAndOffsetsFrom_offsets_cons, GetAsTextAndOffsetsFrom_flat_length_cons]
      refine ⟨rfl, by simp, ?_⟩
      have e1 : ((k : Int) + ((l.length + 1 +
          (GetAsTextAndOffsetsFrom (k + l.length + 1) (n :: rest2)).1.length : Nat) : Int))
          = (((k + l.length + 1 : Nat) : Int) +
            (((GetAsTextAndOffsetsFrom (k + l.length + 1) (n :: rest2)).1.length : Nat)
              : Int)) := by
        push_cast
        ring
      have e2 : ((k : Int) + ((l.length : Nat) : Int) + 1) = ((k + l.length + 1 : Nat) : Int) := by
        push_cast
        ring
      rw [e1]
      simp only [e2]
      exact h

/-- The lengths recorded in the table are the lengths of the lines. -/
theorem GetAsTextAndOffsetsFrom_lengths (lines : List (List Char)) (k : Nat) :
    (GetAsTextAndOffsetsFrom k lines).2.map (fun e => e.DocumentLineLength) =
      lines.map (fun l => ((l.length : Nat) : Int)) := by
  induction lines generalizing k with
  | nil => rfl
  | cons l rest ih =>
    rw [GetAsTextAndOffsetsFrom_offsets_cons, List.map_cons, List.map_cons, ih]

theorem FTextOffsetLocations.clampOffset_of_mem (x len : Int) (h0 : 0 ≤ x) (h1 : x ≤ len) :
    clampOffset x len = x := by
  unfold clampOffset
  split_ifs <;> omega

/-- Every entry of a tiled table lies between the start and the stop index. -/
theorem FTextOffsetLocations.Tiled.entry_bounds (t : Int) :
    ∀ (es : List FOffsetEntry) (s : Int) (i : Nat) (e : FOffsetEntry),
      Tiled t s es → es[i]? = some e →
      s ≤ e.FlatStringIndex ∧ 0 ≤ e.DocumentLineLength ∧
        e.FlatStringIndex + e.DocumentLineLength ≤ t
  | [], _, _, _, _, hi => by simp at hi
  | e0 :: rest, s, i, e, ht, hi => by
    obtain ⟨hs, hl, hr⟩ := ht
    cases i with
    | zero =>
      simp only [List.getElem?_cons_zero, Option.some.injEq] at hi
      subst hi
      cases rest with
      | nil =>
        simp only [Tiled] at hr
        omega
      | cons e2 r =>
        have := FTextOffsetLocations.Tiled.entry_bounds t (e2 :: r) _ 0 e2 hr (by simp)
        have h2 := hr.1
        omega
    | succ j =>
      simp only [List.getElem?_cons_succ] at hi
      have := FTextOffsetLocations.Tiled.entry_bounds t rest _ j e hr hi
      omega

/-- On a tiled table the scan finds, for an offset between start and stop, a line that
contains it, and returns the distance of the offset from the start of that line. -/
theorem FTextOffsetLocations.OffsetToTextLocationFrom_spec (t o : Int) :
    ∀ (es : List FOffsetEntry) (s : Int) (n : Nat),
      Tiled t s es → s ≤ o → o ≤ t →
      ∃ (i : Nat) (e : FOffsetEntry), es[i]? = some e ∧
        OffsetToTextLocationFrom o n es =
          { LineIndex := ((n + i : Nat) : Int), Offset := o - e.FlatStringIndex } ∧
        0 ≤ o - e.FlatStringIndex ∧ o - e.FlatStringIndex ≤ e.DocumentLineLength
  | [], s, n, ht, h0, h1 => by
    simp only [Tiled] at ht
    omega
  | [e0], s, n, ht, h0, h1 => by
    obtain ⟨hs, hl, hr⟩ := ht
    simp only [Tiled] at hr
    refine ⟨0, e0, by simp, ?_, by omega, by omega⟩
    have hc : e0.FlatStringIndex ≤ o := by omega
    simp only [OffsetToTextLocationFrom, hc, if_true, FTextLocation.ctor, Nat.add_zero]
    rw [clampOffset_of_mem _ _ (by omega) (by omega)]
  | e0 :: e2 :: r, s, n, ht, h0, h1 => by
    obtain ⟨hs, hl, hr⟩ := ht
    have h2 : e2.FlatStringIndex = s + e0.DocumentLineLength + 1 := hr.1
    by_cases hlt : o < e2.FlatStringIndex
    · refine ⟨0, e0, by simp, ?_, by omega, by omega⟩
      have hc : e0.FlatStringIndex ≤ o ∧ o < e2.FlatStringIndex := ⟨by omega, hlt⟩
      simp only [OffsetToTextLocationFrom, hc, if_true, FTextLocation.ctor, Nat.add_zero]
      rw [clampOffset_of_mem _ _ (by omega) (by omega)]
      simp
    · obtain ⟨i, e, hi, hloc, hb0, hb1⟩ :=
        FTextOffsetLocations.OffsetToTextLocationFrom_spec t o (e2 :: r) _ (n + 1) hr
          (by omega) h1
      refine ⟨i + 1, e, by simpa using hi, ?_, hb0, hb1⟩
      have hc : ¬ (e0.FlatStringIndex ≤ o ∧ o < e2.FlatStringIndex) := fun h => hlt h.2
      simp only [OffsetToTextLocationFrom, hc, if_false, hloc, FTextLocation.mk.injEq,
        and_true]
      push_cast
      ring

/-- On a tiled table the scan maps the flat index of a position inside line `i` back
to line `i` and the offset of the position within that line. -/
theorem FTextOffsetLocations.OffsetToTextLocationFrom_of_entry (t off : Int) :
    ∀ (es : List FOffsetEntry) (s : Int) (n i : Nat) (e : FOffsetEntry),
      Tiled t s es → es[i]? = some e → 0 ≤ off → off ≤ e.DocumentLineLength →
      OffsetToTextLocationFrom (e.FlatStringIndex + off) n es =
        { LineIndex := ((n + i : Nat) : Int), Offset := off }
  | [], _, _, _, _, _, hi, _, _ => by simp at hi
  | [e0], s, n, i, e, ht, hi, h0, h1 => by
    cases i with
    | zero =>
      simp only [List.getElem?_cons_zero, Option.some.injEq] at hi
      subst hi
      have hc : e0.FlatStringIndex ≤ e0.FlatStringIndex + off := by omega
      simp only [OffsetToTextLocationFrom, hc, if_true, FTextLocation.ctor, Nat.add_zero]
      rw [clampOffset_of_mem _ _ (by omega) (by omega)]
      simp
    | succ j => simp at hi
  | e0 :: e2 :: r, s, n, i, e, ht, hi, h0, h1 => by
    obtain ⟨hs, hl, hr⟩ := ht
    have h2 : e2.FlatStringIndex = s + e0.DocumentLineLength + 1 := hr.1
    cases i with
    | zero =>
      simp only [List.getElem?_cons_zero, Option.some.injEq] at hi
      subst hi
      have hc : e0.FlatStringIndex ≤ e0.FlatStringIndex + off ∧
          e0.FlatStringIndex + off < e2.FlatStringIndex := ⟨by omega, by omega⟩
      simp only [OffsetToTextLocationFrom, hc, if_true, FTextLocation.ctor, Nat.add_zero]
      rw [clampOffset_of_mem _ _ (by omega) (by omega)]
      simp
    | succ j =>
      simp only [List.getElem?_cons_succ] at hi
      have hb := FTextOffsetLocations.Tiled.entry_bounds t (e2 :: r) _ j e hr hi
      have hc : ¬ (e0.FlatStringIndex ≤ e.FlatStringIndex + off ∧
          e.FlatStringIndex + off < e2.FlatStringIndex) := by omega
      simp only [OffsetToTextLocationFrom, hc, if_false]
      rw [FTextOffsetLocations.OffsetToTextLocationFrom_of_entry t off (e2 :: r) _ (n + 1) j e
        hr hi h0 h1]
      simp only [FTextLocation.mk.injEq, and_true]
      push_cast
      ring

end FTextLayout

/-- C8: over the table built from a document, every location `L` on an existing line
with `0 ≤ L.Offset ≤` the length of that line satisfies
`OffsetToTextLocation(TextLocationToOffset(L)) == L`, and every offset `o` with
`0 ≤ o ≤` the total text length satisfies
`TextLocationToOffset(OffsetToTextLocation(o)) == o`. -/
theorem FTextLayout.offset_round_trip (LineModels : List (List Char)) :
    (∀ (L : FTextLocation) (line : List Char),
        0 ≤ L.LineIndex → L.LineIndex < LineModels.length →
        LineModels[L.LineIndex.toNat]? = some line →
        0 ≤ L.Offset → L.Offset ≤ line.length →
        ((FTextLayout.GetTextOffsetLocations LineModels).OffsetToTextLocation
          ((FTextLayout.GetTextOffsetLocations LineModels).TextLocationToOffset L)).operator_eq L
            = true) ∧
    (∀ o : Int, 0 ≤ o → o ≤ FTextLayout.totalLength LineModels →
        (FTextLayout.GetTextOffsetLocations LineModels).TextLocationToOffset
          ((FTextLayout.GetTextOffsetLocations LineModels).OffsetToTextLocation o) = o) := by
  constructor
  · rintro ⟨li, off⟩ line hl0 _ hline ho0 ho1
    simp only at hl0 hline ho0 ho1
    have hne : LineModels ≠ [] := by
      rintro rfl
      simp at hline
    have ht := FTextLayout.GetAsTextAndOffsetsFrom_tiled LineModels hne 0
    have hlen := congrArg (fun l => l[li.toNat]?)
      (FTextLayout.GetAsTextAndOffsetsFrom_lengths LineModels 0)
    simp only [List.getElem?_map, hline, Option.map_some'] at hlen
    obtain ⟨e, he, hel⟩ := Option.map_eq_some'.mp hlen
    have hto : (FTextLayout.GetTextOffsetLocations LineModels).TextLocationToOffset
        { LineIndex := li, Offset := off } = e.FlatStringIndex + off := by
      simp only [FTextLayout.FTextOffsetLocations.TextLocationToOffset,
        FTextLayout.GetTextOffsetLocations, FTextLayout.GetAsTextAndOffsets,
        FTextLocation.GetLineIndex, FTextLocation.GetOffset, hl0, if_true, he]
      rw [FTextLayout.FTextOffsetLocations.clampOffset_of_mem _ _ ho0 (by omega)]
    have hloc := FTextLayout.FTextOffsetLocations.OffsetToTextLocationFrom_of_entry _ off
      _ _ 0 li.toNat e ht he ho0 (by omega)
    rw [hto]
    simp only [FTextLayout.FTextOffsetLocations.OffsetToTextLocation,
      FTextLayout.GetTextOffsetLocations, FTextLayout.GetAsTextAndOffsets, hloc,
      FTextLocation.operator_eq, Bool.and_eq_true, beq_iff_eq, and_true]
    omega
  · intro o h0 h1
    by_cases hne : LineModels = []
    · subst hne
      have ho : o = 0 := by
        have h2 : FTextLayout.totalLength [] = 0 := rfl
        omega
      subst ho
      decide
    · have ht := FTextLayout.GetAsTextAndOffsetsFrom_tiled LineModels hne 0
      have h1 : o ≤ ((0 : Nat) : Int) +
          (((FTextLayout.GetAsTextAndOffsetsFrom 0 LineModels).1.length : Nat) : Int) := by
        simpa [FTextLayout.totalLength, FTextLayout.GetAsTextAndOffsets] using h1
      obtain ⟨i, e, hi, hloc, hb0, hb1⟩ :=
        FTextLayout.FTextOffsetLocations.OffsetToTextLocationFrom_spec _ o _ _ 0 ht
          (by simpa using h0) h1
      simp only [FTextLayout.FTextOffsetLocations.OffsetToTextLocation,
        FTextLayout.GetTextOffsetLocations, FTextLayout.GetAsTextAndOffsets, hloc,
        FTextLayout.FTextOffsetLocations.TextLocationToOffset, FTextLocation.GetLineIndex,
        FTextLocation.GetOffset, Nat.zero_add, Int.natCast_nonneg, if_true, Int.toNat_ofNat,
        hi]
      rw [FTextLayout.FTextOffsetLocations.clampOffset_of_mem _ _ hb0 hb1]
      omega

/-- Witness for C8 on the three-line document `ab`, empty line, `cde`: the location
`(2, 1)` and the flat offset `3` both survive the round trip. -/
theorem FTextLayout.offset_round_trip_witness :
    ((FTextLayout.GetTextOffsetLocations [['a', 'b'], [], ['c', 'd', 'e']]).OffsetToTextLocation
        ((FTextLayout.GetTextOffsetLocations
          [['a', 'b'], [], ['c', 'd', 'e']]).TextLocationToOffset
            { LineIndex := 2, Offset := 1 })).operator_eq
        { LineIndex := 2, Offset := 1 } = true ∧
    (FTextLayout.GetTextOffsetLocations [['a', 'b'], [], ['c', 'd', 'e']]).TextLocationToOffset
        ((FTextLayout.GetTextOffsetLocations
          [['a', 'b'], [], ['c', 'd', 'e']]).OffsetToTextLocation 3) = 3 :=
  ⟨(FTextLayout.offset_round_trip [['a', 'b'], [], ['c', 'd', 'e']]).1
      { LineIndex := 2, Offset := 1 } ['c', 'd', 'e']
      (by decide) (by decide) (by decide) (by decide) (by decide),
    (FTextLayout.offset_round_trip [['a', 'b'], [], ['c', 'd', 'e']]).2
      3 (by decide) (by decide)⟩

/-- Witness for C10 on the flag word `5`: clearing `Layout` leaves the `Highlights`
test unchanged, and setting `Highlights` leaves the `Layout` test unchanged. -/
theorem FTextLayout.EDirtyState.flags_independent_witness :
    5 < 2 ^ 8 ∧
    FTextLayout.EDirtyState.testFlag
        (FTextLayout.EDirtyState.clearFlag 5 FTextLayout.EDirtyState.Layout)
        FTextLayout.EDirtyState.Highlights
      = FTextLayout.EDirtyState.testFlag 5 FTextLayout.EDirtyState.Highlights ∧
    FTextLayout.EDirtyState.testFlag
        (FTextLayout.EDirtyState.setFlag 5 FTextLayout.EDirtyState.Highlights)
        FTextLayout.EDirtyState.Layout
      = FTextLayout.EDirtyState.testFlag 5 FTextLayout.EDirtyState.Layout :=
  ⟨by decide,
    (FTextLayout.EDirtyState.flags_independent 5 (by decide)).2.2.2.2.2.2.2.2.1,
    (FTextLayout.EDirtyState.flags_independent 5 (by decide)).2.2.2.2.2.2.2.2.2.1⟩
